import Mathlib

/-!
Shallow embedding of the QueueCTL job queue (Python sources
`queuectl/models.py`, `queuectl/worker.py`, `queuectl/cli.py`).

Modelling conventions:
* Python strings stay `String`; non-negative Python ints stay `Nat`.
* Timestamps are stored by the Python code as ISO-8601 strings with a `Z`
  suffix.  We model an instant as a `Nat` (seconds) and `isoZ` as the
  rendering performed by `datetime.isoformat() + "Z"`; the dataclass fields
  keep the rendered `String`, exactly as the Python dataclass does.
* The subprocess call of the worker (`subprocess.run`) is external to the
  repository; its possible outcomes are reified as `ExecResult`, and the
  worker logic is a pure function of that outcome.
* `Config.worker_poll_interval` (a float used only to sleep between polls) is
  irrelevant to every claim and is omitted from the `Config` record.
-/

namespace QueueCTL

/-- Job state constants, from `models.py` class `JobState`. -/
def JobState.PENDING : String := "pending"

/-- Job state constant `JobState.PROCESSING` from `models.py`. -/
def JobState.PROCESSING : String := "processing"

/-- Job state constant `JobState.COMPLETED` from `models.py`. -/
def JobState.COMPLETED : String := "completed"

/-- Job state constant `JobState.FAILED` from `models.py`. -/
def JobState.FAILED : String := "failed"

/-- Job state constant `JobState.DEAD` from `models.py`. -/
def JobState.DEAD : String := "dead"

/-- The `Job` dataclass of `models.py`.  The Python `created_at`/`updated_at`
defaults are `None` and are immediately replaced by the current time in
`__post_init__`; construction sites in this embedding pass that time
explicitly, so the fields here are plain strings. -/
structure Job where
  id : String
  command : String
  state : String := JobState.PENDING
  attempts : Nat := 0
  max_retries : Nat := 3
  created_at : String
  updated_at : String
  next_retry_at : Option String := none
  error_message : Option String := none
deriving Repr, DecidableEq

/-- The `Config` dataclass of `models.py` (the float `worker_poll_interval`,
used only for idle sleeping, is omitted). -/
structure Config where
  max_retries : Nat := 3
  backoff_base : Nat := 2
  job_timeout : Nat := 300
deriving Repr, DecidableEq

/-- Rendering of an instant (seconds, as `Nat`) to the ISO-8601 `Z`-suffixed
string produced by `datetime.utcnow().isoformat() + "Z"` in the source.  The
real rendering is an injective map from instants to strings; this model keeps
the instant readable inside the string. -/
def isoZ (t : Nat) : String := toString t ++ "Z"

/-- Outcome of one `subprocess.run` invocation in `Worker._execute_job`:
normal completion with an exit code and captured stdout/stderr, a
`subprocess.TimeoutExpired`, or any other spawn/runner exception. -/
inductive ExecResult where
  | completed (returncode : Int) (stdout : String) (stderr : String)
  | timeout
  | spawnError (message : String)
deriving Repr, DecidableEq

/-- Did the attempt succeed?  `worker.py` line 87: `result.returncode == 0`;
timeouts and spawn exceptions are never successes. -/
def ExecResult.isSuccess : ExecResult → Bool
  | .completed rc _ _ => rc = 0
  | .timeout => false
  | .spawnError _ => false

/-- The error message captured for a failed attempt, from
`Worker._execute_job` (lines 96-107): for a non-zero exit,
`result.stderr.strip() if result.stderr else f"Exit code: {returncode}"`
(the emptiness test is on the unstripped stderr, as in Python truthiness);
for a timeout, `f"Job timed out after {job_timeout} seconds"`; for a spawn
exception, `str(e)`. -/
def failure_message (cfg : Config) : ExecResult → String
  | .completed rc _ stderr =>
      if stderr ≠ "" then stderr.trim else "Exit code: " ++ toString rc
  | .timeout => "Job timed out after " ++ toString cfg.job_timeout ++ " seconds"
  | .spawnError msg => msg

/-- The backoff formula of `Worker._handle_job_failure` line 128:
`backoff_seconds = self.config.backoff_base ** job.attempts`.  The spec names
this pure function `backoff_delay(attempts, base)`. -/
def backoff_delay (attempts base : Nat) : Nat := base ^ attempts

/-- `Worker._handle_job_failure` (worker.py lines 114-135): record the error
message; if `attempts >= max_retries` move the job to the DLQ
(`state=dead`, `next_retry_at=None`), otherwise schedule a retry
(`state=failed`, `next_retry_at = utcnow() + backoff_base ** attempts`). -/
def handle_job_failure (cfg : Config) (now : Nat) (job : Job)
    (error_message : String) : Job :=
  let job := { job with error_message := some error_message }
  if job.attempts ≥ job.max_retries then
    { job with state := JobState.DEAD, next_retry_at := none }
  else
    { job with
        state := JobState.FAILED,
        next_retry_at := some (isoZ (now + backoff_delay job.attempts cfg.backoff_base)) }

/-- `Worker._execute_job` (worker.py lines 68-112) as a pure function of the
subprocess outcome: increment `attempts` first, then on exit code 0 set
`state=completed` and clear `error_message`; on any failure delegate to
`_handle_job_failure` with the captured message.  The returned record is
exactly what the `finally` block persists with `save_job`. -/
def execute_job (cfg : Config) (now : Nat) (job : Job) (result : ExecResult) : Job :=
  let job := { job with attempts := job.attempts + 1 }
  match result with
  | .completed rc stdout stderr =>
      if rc = 0 then
        { job with state := JobState.COMPLETED, error_message := none }
      else
        handle_job_failure cfg now job (failure_message cfg (.completed rc stdout stderr))
  | .timeout => handle_job_failure cfg now job (failure_message cfg .timeout)
  | .spawnError msg => handle_job_failure cfg now job (failure_message cfg (.spawnError msg))

/-- The job table of the store, keyed by `Job.id`.  `storage.py` is not part
of the sources; the store is modelled as the list of job records it holds. -/
abbrev Store := List Job

/-- `storage.get_job(id)`: the record with the given id, if any. -/
def Store.lookup (s : Store) (id : String) : Option Job :=
  s.find? (fun j => j.id == id)

/-- `storage.save_job(job)`: upsert by id (replace the record with the same
id, or append a new one). -/
def Store.save (s : Store) (job : Job) : Store :=
  if (s.lookup job.id).isSome then
    s.map (fun x => if x.id == job.id then job else x)
  else s ++ [job]

/-- A parsed enqueue JSON object, mirroring exactly the keyword arguments
`Job.from_dict` (i.e. `Job(**data)`) accepts in `cli.enqueue`: `id` and
`command` are required, every other dataclass field is optional. -/
structure EnqueueInput where
  id : String
  command : String
  state : Option String := none
  attempts : Option Nat := none
  max_retries : Option Nat := none
  created_at : Option String := none
  updated_at : Option String := none
  next_retry_at : Option String := none
  error_message : Option String := none
deriving Repr, DecidableEq

/-- The job record built by `cli.enqueue` before the duplicate check: the cli
fills `max_retries` from the config when the input omits it (cli.py lines
56-57), then `Job.from_dict` applies the dataclass defaults and
`__post_init__` fills missing timestamps with the current time `now`. -/
def Job.fromInput (cfg : Config) (now : String) (input : EnqueueInput) : Job :=
  { id := input.id
    command := input.command
    state := input.state.getD JobState.PENDING
    attempts := input.attempts.getD 0
    max_retries := input.max_retries.getD cfg.max_retries
    created_at := input.created_at.getD now
    updated_at := input.updated_at.getD now
    next_retry_at := input.next_retry_at
    error_message := input.error_message }

/-- `cli.enqueue` (cli.py lines 34-82) on an already-parsed input: build the
job, fail with exit code 1 if a record with the same id exists (leaving the
store untouched), otherwise save it and exit 0.  The result is the store
after the command together with the process exit code. -/
def enqueue (s : Store) (cfg : Config) (now : String) (input : EnqueueInput) :
    Store × Nat :=
  let job := Job.fromInput cfg now input
  match s.lookup job.id with
  | some _ => (s, 1)
  | none => (s.save job, 0)

/-- `cli.dlq_retry` (cli.py lines 335-370): exit 1 if the id is missing or
the job is not in state `dead` (no store write happens on these paths);
otherwise reset the record to `pending`, clear `error_message` and
`next_retry_at`, reset `attempts` to 0 only under `--reset-attempts`, save,
and exit 0. -/
def dlq_retry (s : Store) (id : String) (reset_attempts : Bool) : Store × Nat :=
  match s.lookup id with
  | none => (s, 1)
  | some job =>
      if job.state = JobState.DEAD then
        (s.save { job with
                    state := JobState.PENDING,
                    error_message := none,
                    next_retry_at := none,
                    attempts := if reset_attempts then 0 else job.attempts }, 0)
      else (s, 1)

/-! ### Operation-level model of how the store evolves

Committed writes on the job table come from four sources: `cli.enqueue`,
lease acquisition (`storage.acquire_job`, which marks the selected job
`processing`; `storage.py` is not in the sources, so the mark is taken from
spec §4.1 step 4), the end-of-attempt persist by the worker (the
`finally` block of `_execute_job`), and `cli.dlq_retry`.  Time-based eligibility of `failed`
jobs is over-approximated here: `acquire` may take any `pending` or `failed`
job regardless of `next_retry_at`, which only enlarges the set of reachable
stores. -/

/-- One atomic committed operation on the job table. -/
inductive Op where
  | enqueue (input : EnqueueInput) (now : String)
  | acquire (id : String)
  | finish (id : String) (result : ExecResult) (now : Nat)
  | dlqRetry (id : String) (reset_attempts : Bool)
deriving Repr, DecidableEq

/-- Apply one operation; `none` when the operation is rejected (duplicate
enqueue, missing id, job not in an eligible state), in which case the code
performs no store write. -/
def applyOp (cfg : Config) (s : Store) : Op → Option Store
  | .enqueue input now =>
      let r := QueueCTL.enqueue s cfg now input
      if r.2 = 0 then some r.1 else none
  | .acquire id =>
      match s.lookup id with
      | some job =>
          if job.state = JobState.PENDING ∨ job.state = JobState.FAILED then
            some (s.save { job with state := JobState.PROCESSING })
          else none
      | none => none
  | .finish id result now =>
      match s.lookup id with
      | some job =>
          if job.state = JobState.PROCESSING then
            some (s.save (execute_job cfg now job result))
          else none
      | none => none
  | .dlqRetry id reset =>
      let r := QueueCTL.dlq_retry s id reset
      if r.2 = 0 then some r.1 else none

/-- Run a sequence of operations; `none` as soon as one is rejected. -/
def runOps (cfg : Config) : List Op → Store → Option Store
  | [], s => some s
  | op :: ops, s =>
      match applyOp cfg s op with
      | some s' => runOps cfg ops s'
      | none => none

/-- Per-record inductive invariant implying `attempts ≤ max_retries + 1`:
every record is within one of the budget, and a record still eligible for an
attempt (pending, leased, or awaiting retry) is within the budget itself. -/
def attempts_ok (j : Job) : Prop :=
  j.attempts ≤ j.max_retries + 1 ∧
  (j.state = JobState.PENDING ∨ j.state = JobState.PROCESSING ∨
      j.state = JobState.FAILED →
    j.attempts ≤ j.max_retries)

instance (j : Job) : Decidable (attempts_ok j) := by
  unfold attempts_ok; infer_instance

/-- Operations that do not smuggle attempt counts past the budget: enqueue
inputs that leave `attempts` to its default of 0 (any `state` override is
fine), and DLQ retries run with `--reset-attempts`. -/
def Op.conservative : Op → Prop
  | .enqueue input _ => input.attempts = none
  | .dlqRetry _ reset => reset = true
  | .acquire _ => True
  | .finish _ _ _ => True

instance (op : Op) : Decidable op.conservative := by
  unfold Op.conservative; cases op <;> infer_instance

/-! ### Spec-modelled lease store

Modelled from the spec: `storage.py` is not among the sources, so the store
record and `acquire_next` below follow §4.1 of the spec verbatim — a job
record extended with `lease_owner`/`lease_expires_at`, and atomic selection
of the best candidate (pending, or failed and due; no live lease; FIFO by
`created_at` with id tiebreak), marking it `processing` and leased until
`now + job_timeout + grace`. -/
structure SJob where
  id : String
  created_at : Nat
  state : String
  attempts : Nat := 0
  next_retry_at : Option Nat := none
  lease_owner : Option String := none
  lease_expires_at : Option Nat := none
deriving Repr, DecidableEq

/-- Modelled from the spec (§4.1 step 2): a lease is live when `lease_owner`
is set and `lease_expires_at > now`. -/
def SJob.leaseLive (j : SJob) (now : Nat) : Bool :=
  j.lease_owner.isSome &&
    (match j.lease_expires_at with
     | some e => decide (now < e)
     | none => false)

/-- Modelled from the spec (§4.1 step 1): eligible jobs are `pending`, or
`failed` with `next_retry_at ≤ now`. -/
def SJob.eligible (j : SJob) (now : Nat) : Bool :=
  j.state == JobState.PENDING ||
    (j.state == JobState.FAILED &&
      (match j.next_retry_at with
       | some t => decide (t ≤ now)
       | none => false))

/-- Modelled from the spec (§4.1 steps 1-2): a candidate for acquisition. -/
def SJob.candidate (j : SJob) (now : Nat) : Bool :=
  j.eligible now && !(j.leaseLive now)

/-- Modelled from the spec (§4.1 step 3): strict preference order — smaller
`created_at` first, ties broken by lexicographically smaller id. -/
def betterThan (a b : SJob) : Bool :=
  decide (a.created_at < b.created_at) ||
    (a.created_at == b.created_at && decide (a.id < b.id))

/-- Best element of a candidate list under `betterThan`. -/
def chooseBest : List SJob → Option SJob
  | [] => none
  | j :: rest =>
      match chooseBest rest with
      | none => some j
      | some k => if betterThan k j then some k else some j

/-- Modelled from the spec (§4.1): `acquire_next(worker_id, now)` — pick the
best candidate, atomically mark it `processing` and leased by `worker_id`
until `now + job_timeout + grace`, and return it with the updated store. -/
def acquire_next (cfg : Config) (grace : Nat) (worker_id : String) (now : Nat)
    (s : List SJob) : Option (SJob × List SJob) :=
  match chooseBest (s.filter (fun j => j.candidate now)) with
  | none => none
  | some j =>
      let leased := { j with
                        state := JobState.PROCESSING,
                        lease_owner := some worker_id,
                        lease_expires_at := some (now + cfg.job_timeout + grace) }
      some (leased, s.map (fun x => if x.id == j.id then leased else x))

/-! ### Serialization (`models.py` lines 41-58)

The Python `json.dumps`/`json.loads` pair (external standard library) is
faithful pair on the JSON trees that `Job.to_dict` produces, so the string
layer is modelled as the identity on JSON values: `to_json` wraps the dict
in a JSON object node and `from_json` unwraps it. -/

/-- A JSON value as produced/consumed by the Job serializers: `null`,
strings, non-negative integers, and objects (ordered key/value lists, like
Python dicts). -/
inductive JValue where
  | null
  | str (s : String)
  | num (n : Nat)
  | obj (fields : List (String × JValue))
deriving Repr

/-- Encoding of an optional string field, as `dataclasses.asdict` emits it:
`None` becomes JSON `null`. -/
def JValue.ofOptStr : Option String → JValue
  | none => .null
  | some s => .str s

/-- `Job.to_dict` = `dataclasses.asdict(self)`: every field, in dataclass
declaration order. -/
def Job.to_dict (j : Job) : List (String × JValue) :=
  [("id", .str j.id),
   ("command", .str j.command),
   ("state", .str j.state),
   ("attempts", .num j.attempts),
   ("max_retries", .num j.max_retries),
   ("created_at", .str j.created_at),
   ("updated_at", .str j.updated_at),
   ("next_retry_at", JValue.ofOptStr j.next_retry_at),
   ("error_message", JValue.ofOptStr j.error_message)]

/-- The keyword names `Job(**data)` accepts. -/
def Job.fieldNames : List String :=
  ["id", "command", "state", "attempts", "max_retries",
   "created_at", "updated_at", "next_retry_at", "error_message"]

/-- Value bound to key `k` in a decoded JSON object. -/
def lookupField (d : List (String × JValue)) (k : String) : Option JValue :=
  (d.find? (fun kv => kv.1 == k)).map (fun kv => kv.2)

/-- Decode a required string field. -/
def getStrField (d : List (String × JValue)) (k : String) : Option String :=
  match lookupField d k with
  | some (.str s) => some s
  | _ => none

/-- Decode a string field with a dataclass default for a missing key. -/
def strFieldD (d : List (String × JValue)) (k : String) (dflt : String) :
    Option String :=
  match lookupField d k with
  | none => some dflt
  | some (.str s) => some s
  | some _ => none

/-- Decode a numeric field with a dataclass default for a missing key. -/
def natFieldD (d : List (String × JValue)) (k : String) (dflt : Nat) :
    Option Nat :=
  match lookupField d k with
  | none => some dflt
  | some (.num n) => some n
  | some _ => none

/-- Decode a timestamp field: a missing key or `null` is replaced by the
current time in `__post_init__`. -/
def tsField (d : List (String × JValue)) (k : String) (now : String) :
    Option String :=
  match lookupField d k with
  | none => some now
  | some .null => some now
  | some (.str s) => some s
  | some _ => none

/-- Decode an optional string field: missing key or `null` is `None`. -/
def optStrField (d : List (String × JValue)) (k : String) :
    Option (Option String) :=
  match lookupField d k with
  | none => some none
  | some .null => some none
  | some (.str s) => some (some s)
  | some _ => none

/-- `Job.from_dict(data)` = `Job(**data)` followed by `__post_init__` with
current time `now`: unknown keys raise `TypeError` (here `none`), missing
keys take the dataclass defaults, missing/`null` timestamps become `now`.
The Python dataclass performs no runtime type check; decoding restricts to
the type-correct values a `Job` record can hold. -/
def Job.from_dict (now : String) (d : List (String × JValue)) : Option Job :=
  if d.all (fun kv => Job.fieldNames.contains kv.1) then do
    let id ← getStrField d "id"
    let command ← getStrField d "command"
    let state ← strFieldD d "state" JobState.PENDING
    let attempts ← natFieldD d "attempts" 0
    let max_retries ← natFieldD d "max_retries" 3
    let created_at ← tsField d "created_at" now
    let updated_at ← tsField d "updated_at" now
    let next_retry_at ← optStrField d "next_retry_at"
    let error_message ← optStrField d "error_message"
    pure { id, command, state, attempts, max_retries,
           created_at, updated_at, next_retry_at, error_message }
  else none

/-- `Job.to_json` = `json.dumps(self.to_dict())`, modelled at the JSON-tree
level. -/
def Job.to_json (j : Job) : JValue := .obj j.to_dict

/-- `Job.from_json` = `from_dict(json.loads(s))`, modelled at the JSON-tree
level; a non-object document fails. -/
def Job.from_json (now : String) (v : JValue) : Option Job :=
  match v with
  | .obj d => Job.from_dict now d
  | _ => none

/-! ### Concrete test vectors used by witnesses and counterexamples -/

/-- Default configuration (the `models.py` defaults), used as a test vector. -/
def config0 : Config := {}

/-- Test vector: a previously failed job awaiting its retry. -/
def job_ex1 : Job :=
  { id := "j2"
    command := "true"
    state := JobState.FAILED
    attempts := 1
    max_retries := 3
    created_at := "0Z"
    updated_at := "0Z"
    next_retry_at := some "7Z"
    error_message := some "boom" }

/-- Test vector: a dead job sitting in the DLQ. -/
def job_dead : Job :=
  { id := "jd"
    command := "false"
    state := JobState.DEAD
    attempts := 3
    max_retries := 3
    created_at := "0Z"
    updated_at := "1Z"
    error_message := some "Exit code: 1" }

/-- Test vector: a minimal enqueue input. -/
def input_x : EnqueueInput := { id := "x", command := "c" }

/-- Test vector: an enqueue input that overrides the job state. -/
def input_override : EnqueueInput :=
  { id := "x", command := "c", state := some JobState.COMPLETED }

/-- Test vector: a pending job of the spec-modelled lease store. -/
def sjob_a : SJob := { id := "a", created_at := 0, state := JobState.PENDING }

/-- Test vector: a second pending job of the spec-modelled lease store. -/
def sjob_b : SJob := { id := "b", created_at := 1, state := JobState.PENDING }

/-- Test vector: `sjob_a` after acquisition by worker `w1` at time 0. -/
def sjob_a_leased : SJob :=
  { id := "a", created_at := 0, state := JobState.PROCESSING,
    lease_owner := some "w1", lease_expires_at := some 305 }

/-- Test vector: `sjob_b` after acquisition by worker `w2` at time 1. -/
def sjob_b_leased : SJob :=
  { id := "b", created_at := 1, state := JobState.PROCESSING,
    lease_owner := some "w2", lease_expires_at := some 306 }

/-- Test vector for C4: a `max_retries = 0` job dies, is DLQ-retried without
`--reset-attempts`, and dies again. -/
def trace_no_reset : List Op :=
  [ .enqueue { id := "j", command := "false", max_retries := some 0 } "0Z",
    .acquire "j",
    .finish "j" (.completed 1 "" "") 1,
    .dlqRetry "j" false,
    .acquire "j",
    .finish "j" (.completed 1 "" "") 2 ]

/-- The final record `trace_no_reset` leaves in the store. -/
def job_violating : Job :=
  { id := "j", command := "false", state := JobState.DEAD, attempts := 2,
    max_retries := 0, created_at := "0Z", updated_at := "0Z",
    error_message := some "Exit code: 1" }

/-- Test vector: the conservative prefix of `trace_no_reset`. -/
def trace_conservative : List Op :=
  [ .enqueue { id := "j", command := "false", max_retries := some 0 } "0Z",
    .acquire "j",
    .finish "j" (.completed 1 "" "") 1 ]

/-- The final record `trace_conservative` leaves in the store. -/
def job_dead_once : Job :=
  { id := "j", command := "false", state := JobState.DEAD, attempts := 1,
    max_retries := 0, created_at := "0Z", updated_at := "0Z",
    error_message := some "Exit code: 1" }

/-! ### Helper lemmas -/

/-- The failure handler always records the captured message. -/
theorem handle_job_failure_error_message (cfg : Config) (now : Nat) (job : Job)
    (msg : String) :
    (handle_job_failure cfg now job msg).error_message = some msg := by
  simp only [handle_job_failure]
  split <;> rfl

/-- The failure handler on an exhausted budget: move to the DLQ. -/
theorem handle_job_failure_dead (cfg : Config) (now : Nat) (job : Job) (msg : String)
    (h : job.max_retries ≤ job.attempts) :
    handle_job_failure cfg now job msg =
      { job with error_message := some msg, state := JobState.DEAD,
                 next_retry_at := none } := by
  simp only [handle_job_failure]
  split
  · rfl
  · next h2 => exact absurd h (show ¬ job.max_retries ≤ job.attempts from h2)

/-- The failure handler with budget left: schedule a retry. -/
theorem handle_job_failure_retry (cfg : Config) (now : Nat) (job : Job) (msg : String)
    (h : job.attempts < job.max_retries) :
    handle_job_failure cfg now job msg =
      { job with error_message := some msg, state := JobState.FAILED,
                 next_retry_at :=
                   some (isoZ (now + backoff_delay job.attempts cfg.backoff_base)) } := by
  simp only [handle_job_failure]
  split
  · next h2 => exact absurd (show job.max_retries ≤ job.attempts from h2) (by omega)
  · rfl

/-- Every unsuccessful outcome goes through the failure handler with the
captured message, after the attempt increment. -/
theorem execute_job_failure (cfg : Config) (now : Nat) (job : Job)
    (result : ExecResult) (hfail : result.isSuccess = false) :
    execute_job cfg now job result =
      handle_job_failure cfg now { job with attempts := job.attempts + 1 }
        (failure_message cfg result) := by
  cases result with
  | completed rc out err =>
      have hrc : ¬ rc = 0 := by simpa [ExecResult.isSuccess] using hfail
      simp [execute_job, if_neg hrc]
  | timeout => rfl
  | spawnError msg => rfl

/-- Enqueue behaviour when the id is already taken. -/
theorem enqueue_found (s : Store) (cfg : Config) (now : String)
    (input : EnqueueInput) (j : Job) (hl : s.lookup input.id = some j) :
    enqueue s cfg now input = (s, 1) := by
  simp only [enqueue, Job.fromInput]
  rw [hl]

/-- Enqueue behaviour on a fresh id. -/
theorem enqueue_fresh (s : Store) (cfg : Config) (now : String)
    (input : EnqueueInput) (hl : s.lookup input.id = none) :
    enqueue s cfg now input = (s.save (Job.fromInput cfg now input), 0) := by
  simp only [enqueue, Job.fromInput]
  rw [hl]

/-- DLQ retry behaviour on a dead job. -/
theorem dlq_retry_found_dead (s : Store) (j : Job) (id : String) (reset : Bool)
    (hl : s.lookup id = some j) (hd : j.state = JobState.DEAD) :
    dlq_retry s id reset =
      (s.save { j with state := JobState.PENDING, error_message := none,
                       next_retry_at := none,
                       attempts := if reset then 0 else j.attempts }, 0) := by
  simp only [dlq_retry, hl]
  rw [if_pos hd]

/-- DLQ retry behaviour on a job that is not dead. -/
theorem dlq_retry_found_alive (s : Store) (j : Job) (id : String) (reset : Bool)
    (hl : s.lookup id = some j) (hd : j.state ≠ JobState.DEAD) :
    dlq_retry s id reset = (s, 1) := by
  simp only [dlq_retry, hl]
  rw [if_neg hd]

/-- DLQ retry behaviour on a missing id. -/
theorem dlq_retry_missing (s : Store) (id : String) (reset : Bool)
    (hl : s.lookup id = none) :
    dlq_retry s id reset = (s, 1) := by
  simp only [dlq_retry, hl]

/-- A member of the store after `save` is the saved record or an old one. -/
theorem Store.mem_save (s : Store) (job x : Job) (h : x ∈ s.save job) :
    x = job ∨ x ∈ s := by
  unfold Store.save at h
  split at h
  · rcases List.mem_map.mp h with ⟨y, hy, hxy⟩
    split at hxy
    · exact Or.inl hxy.symm
    · exact Or.inr (hxy ▸ hy)
  · rcases List.mem_append.mp h with hx | hx
    · exact Or.inr hx
    · exact Or.inl (by simpa using hx)

/-- A successful lookup returns a record of the store. -/
theorem Store.lookup_mem (s : Store) (id : String) (j : Job)
    (h : s.lookup id = some j) : j ∈ s :=
  List.mem_of_find?_eq_some h

/-- The success/exit-code guard wrapped around an operation result. -/
theorem exit_guard_ok (r : Store × Nat) (s' : Store)
    (h : (if r.2 = 0 then some r.1 else none) = some s') : r.1 = s' ∧ r.2 = 0 := by
  split at h
  · next h0 => exact ⟨by injection h, h0⟩
  · cases h

/-- A record with zero attempts satisfies the budget invariant, whatever its
state. -/
theorem attempts_ok_zero (j : Job) (ha : j.attempts = 0) : attempts_ok j :=
  ⟨by omega, fun _ => by omega⟩

/-- An attempt started within budget lands within the invariant. -/
theorem execute_job_attempts_ok (cfg : Config) (now : Nat) (job : Job)
    (result : ExecResult) (h : job.attempts ≤ job.max_retries) :
    attempts_ok (execute_job cfg now job result) := by
  by_cases hf : result.isSuccess = false
  · rw [execute_job_failure cfg now job result hf]
    by_cases hd : job.max_retries ≤ job.attempts + 1
    · rw [handle_job_failure_dead cfg now { job with attempts := job.attempts + 1 }
        (failure_message cfg result) hd]
      exact ⟨(by omega : job.attempts + 1 ≤ job.max_retries + 1),
             fun hx => absurd (show JobState.DEAD = JobState.PENDING ∨
               JobState.DEAD = JobState.PROCESSING ∨
               JobState.DEAD = JobState.FAILED from hx) (by decide)⟩
    · rw [handle_job_failure_retry cfg now { job with attempts := job.attempts + 1 }
        (failure_message cfg result) (show job.attempts + 1 < job.max_retries by omega)]
      exact ⟨(by omega : job.attempts + 1 ≤ job.max_retries + 1),
             fun _ => (by omega : job.attempts + 1 ≤ job.max_retries)⟩
  · cases result with
    | completed rc out err =>
        have hrc : rc = 0 := by
          by_contra hne
          exact hf (by simpa [ExecResult.isSuccess] using hne)
        subst hrc
        exact ⟨(by omega : job.attempts + 1 ≤ job.max_retries + 1),
               fun hx => absurd (show JobState.COMPLETED = JobState.PENDING ∨
                 JobState.COMPLETED = JobState.PROCESSING ∨
                 JobState.COMPLETED = JobState.FAILED from hx) (by decide)⟩
    | timeout => exact absurd rfl hf
    | spawnError msg => exact absurd rfl hf

/-- One conservative committed operation preserves the budget invariant. -/
theorem applyOp_preserves (cfg : Config) (op : Op) (s s' : Store)
    (hop : op.conservative) (hs : ∀ j ∈ s, attempts_ok j)
    (happ : applyOp cfg s op = some s') : ∀ j ∈ s', attempts_ok j := by
  cases op with
  | enqueue input now =>
      have ha : input.attempts = none := hop
      unfold applyOp at happ
      obtain ⟨h1, h2⟩ := exit_guard_ok _ _ happ
      cases hl : s.lookup input.id with
      | some j =>
          rw [enqueue_found s cfg now input j hl] at h2
          exact absurd h2 Nat.one_ne_zero
      | none =>
          rw [enqueue_fresh s cfg now input hl] at h1
          subst h1
          intro x hx
          rcases Store.mem_save _ _ _ hx with rfl | hx'
          · exact attempts_ok_zero _ (by simp [Job.fromInput, ha])
          · exact hs x hx'
  | acquire id =>
      cases hl : s.lookup id with
      | none =>
          simp only [applyOp, hl] at happ
          exact Option.noConfusion happ
      | some job =>
          simp only [applyOp, hl] at happ
          split at happ
          · next hstate =>
              injection happ with happ
              subst happ
              intro x hx
              rcases Store.mem_save _ _ _ hx with rfl | hx'
              · obtain ⟨h1, h2⟩ := hs job (Store.lookup_mem s id job hl)
                have hle : job.attempts ≤ job.max_retries := by
                  rcases hstate with hp | hf
                  · exact h2 (Or.inl hp)
                  · exact h2 (Or.inr (Or.inr hf))
                exact ⟨(by omega : job.attempts ≤ job.max_retries + 1),
                       fun _ => hle⟩
              · exact hs x hx'
          · cases happ
  | finish id result now =>
      cases hl : s.lookup id with
      | none =>
          simp only [applyOp, hl] at happ
          exact Option.noConfusion happ
      | some job =>
          simp only [applyOp, hl] at happ
          split at happ
          · next hstate =>
              injection happ with happ
              subst happ
              intro x hx
              rcases Store.mem_save _ _ _ hx with rfl | hx'
              · obtain ⟨h1, h2⟩ := hs job (Store.lookup_mem s id job hl)
                exact execute_job_attempts_ok cfg now job result
                  (h2 (Or.inr (Or.inl hstate)))
              · exact hs x hx'
          · cases happ
  | dlqRetry id reset =>
      have hr : reset = true := hop
      subst hr
      unfold applyOp at happ
      obtain ⟨h1, h2⟩ := exit_guard_ok _ _ happ
      cases hl : s.lookup id with
      | none =>
          rw [dlq_retry_missing s id true hl] at h2
          exact absurd h2 Nat.one_ne_zero
      | some j =>
          by_cases hd : j.state = JobState.DEAD
          · rw [dlq_retry_found_dead s j id true hl hd] at h1
            subst h1
            intro x hx
            rcases Store.mem_save _ _ _ hx with rfl | hx'
            · exact attempts_ok_zero _ rfl
            · exact hs x hx'
          · rw [dlq_retry_found_alive s j id true hl hd] at h2
            exact absurd h2 Nat.one_ne_zero

/-- A conservative operation sequence preserves the budget invariant. -/
theorem runOps_preserves (cfg : Config) (ops : List Op) :
    ∀ s₀ s : Store, (∀ op ∈ ops, op.conservative) →
    (∀ j ∈ s₀, attempts_ok j) → runOps cfg ops s₀ = some s →
    ∀ j ∈ s, attempts_ok j := by
  induction ops with
  | nil =>
      intro s₀ s _ hs hrun
      simp only [runOps] at hrun
      injection hrun with h
      subst h
      exact hs
  | cons op ops ih =>
      intro s₀ s hops hs hrun
      cases ha : applyOp cfg s₀ op with
      | none =>
          simp only [runOps, ha] at hrun
          exact Option.noConfusion hrun
      | some s₁ =>
          simp only [runOps, ha] at hrun
          exact ih s₁ s (fun o ho => hops o (List.mem_cons_of_mem _ ho))
            (applyOp_preserves cfg op s₀ s₁ (hops op (List.mem_cons_self _ _)) hs ha)
            hrun

/-- The best candidate is one of the candidates. -/
theorem chooseBest_mem (l : List SJob) : ∀ j, chooseBest l = some j → j ∈ l := by
  induction l with
  | nil => intro j h; exact absurd h (by simp [chooseBest])
  | cons a rest ih =>
      intro j h
      cases hc : chooseBest rest with
      | none =>
          simp only [chooseBest, hc] at h
          injection h with h
          subst h
          exact List.mem_cons_self _ _
      | some k =>
          simp only [chooseBest, hc] at h
          split at h
          · injection h with h
            subst h
            exact List.mem_cons_of_mem _ (ih _ hc)
          · injection h with h
            subst h
            exact List.mem_cons_self _ _

/-! ### Claim theorems -/

/-- C1: for every failed execution attempt (non-zero exit, timeout, or spawn
exception), with the attempt increment already applied before execution, the
record the worker persists carries the captured error message; it has
`state = dead` with `next_retry_at` absent exactly when the post-increment
attempt count has reached `max_retries`, and otherwise `state = failed` with
`next_retry_at = now + backoff_delay(attempts, backoff_base)`. -/
theorem failed_attempt_record (cfg : Config) (now : Nat) (job : Job)
    (result : ExecResult) (hfail : result.isSuccess = false) :
    (execute_job cfg now job result).attempts = job.attempts + 1 ∧
    (execute_job cfg now job result).error_message =
      some (failure_message cfg result) ∧
    (job.max_retries ≤ job.attempts + 1 →
      (execute_job cfg now job result).state = JobState.DEAD ∧
      (execute_job cfg now job result).next_retry_at = none) ∧
    (job.attempts + 1 < job.max_retries →
      (execute_job cfg now job result).state = JobState.FAILED ∧
      (execute_job cfg now job result).next_retry_at =
        some (isoZ (now + backoff_delay (job.attempts + 1) cfg.backoff_base))) := by
  rw [execute_job_failure cfg now job result hfail]
  by_cases h : job.max_retries ≤ job.attempts + 1
  · rw [handle_job_failure_dead cfg now { job with attempts := job.attempts + 1 }
      (failure_message cfg result) h]
    exact ⟨rfl, rfl, fun _ => ⟨rfl, rfl⟩, fun hlt => absurd h (by omega)⟩
  · rw [handle_job_failure_retry cfg now { job with attempts := job.attempts + 1 }
      (failure_message cfg result) (show job.attempts + 1 < job.max_retries by omega)]
    exact ⟨rfl, rfl, fun hge => absurd hge (by omega), fun _ => ⟨rfl, rfl⟩⟩

/-- C1 witness: a failing attempt on `job_ex1` (attempt 2 of 3) lands in
`state = failed` with the captured message recorded. -/
theorem failed_attempt_record_witness :
    (execute_job config0 9 job_ex1 (.completed 1 "" "")).error_message =
      some (failure_message config0 (.completed 1 "" "")) ∧
    (execute_job config0 9 job_ex1 (.completed 1 "" "")).state = JobState.FAILED := by
  have h := failed_attempt_record config0 9 job_ex1 (.completed 1 "" "") (by decide)
  exact ⟨h.2.1, (h.2.2.2 (by decide)).1⟩

/-- C2 (amended): for every acquired job whose command exits 0 within the
timeout, the persisted record has `state = completed`, `error_message`
cleared, `attempts` incremented, and every other field unchanged — in
particular `next_retry_at` keeps its pre-attempt value, so a previously
failed job that succeeds on retry retains its stale `next_retry_at` instead
of ending with it absent. -/
theorem success_record (cfg : Config) (now : Nat) (job : Job) (out err : String) :
    execute_job cfg now job (.completed 0 out err) =
      { job with attempts := job.attempts + 1,
                 state := JobState.COMPLETED,
                 error_message := none } := rfl

/-- C2 counterexample: `job_ex1` is a failed job with
`next_retry_at = some "7Z"`; after a successful retry the persisted record is
completed yet still carries `next_retry_at = some "7Z"`, refuting the claim
that it ends with `next_retry_at` absent. -/
theorem success_keeps_stale_retry_timestamp :
    (execute_job config0 9 job_ex1 (.completed 0 "" "")).state = JobState.COMPLETED ∧
    (execute_job config0 9 job_ex1 (.completed 0 "" "")).next_retry_at = some "7Z" ∧
    some "7Z" ≠ (none : Option String) := by decide

/-- C3 (spec-modelled `acquire_next`): if one `acquire_next` call hands job
`j₁` to worker `w₁` and a later `acquire_next` on the resulting store
succeeds while that lease is still live (`now₂ < now₁ + job_timeout + grace`),
the job handed out the second time has a different id — two concurrent
workers never both receive the same job. -/
theorem acquire_next_no_double_grant (cfg : Config) (grace : Nat)
    (w₁ w₂ : String) (now₁ now₂ : Nat) (s s₁ s₂ : List SJob) (j₁ j₂ : SJob)
    (h₁ : acquire_next cfg grace w₁ now₁ s = some (j₁, s₁))
    (h₂ : acquire_next cfg grace w₂ now₂ s₁ = some (j₂, s₂))
    (hlive : now₂ < now₁ + cfg.job_timeout + grace) :
    j₂.id ≠ j₁.id := by
  unfold acquire_next at h₁ h₂
  cases hc₁ : chooseBest (s.filter (fun j => j.candidate now₁)) with
  | none => rw [hc₁] at h₁; cases h₁
  | some b₁ =>
      rw [hc₁] at h₁
      simp only [Option.some.injEq, Prod.mk.injEq] at h₁
      obtain ⟨hj₁, hs₁⟩ := h₁
      cases hc₂ : chooseBest (s₁.filter (fun j => j.candidate now₂)) with
      | none => rw [hc₂] at h₂; cases h₂
      | some b₂ =>
          rw [hc₂] at h₂
          simp only [Option.some.injEq, Prod.mk.injEq] at h₂
          obtain ⟨hj₂, hs₂⟩ := h₂
          have hb₂ := chooseBest_mem _ _ hc₂
          rw [List.mem_filter] at hb₂
          obtain ⟨hb₂mem, hb₂cand⟩ := hb₂
          intro heq
          have hid : b₂.id = b₁.id := by
            have e₂ : j₂.id = b₂.id := by rw [← hj₂]
            have e₁ : j₁.id = b₁.id := by rw [← hj₁]
            rw [← e₂, ← e₁]; exact heq
          rw [← hs₁] at hb₂mem
          rcases List.mem_map.mp hb₂mem with ⟨x, hx, hfx⟩
          by_cases hxid : x.id == b₁.id
          · rw [if_pos hxid] at hfx
            subst hfx
            have : SJob.candidate
                { b₁ with state := JobState.PROCESSING, lease_owner := some w₁,
                          lease_expires_at := some (now₁ + cfg.job_timeout + grace) }
                now₂ = false := by
              simp [SJob.candidate, SJob.leaseLive, hlive]
            rw [this] at hb₂cand
            cases hb₂cand
          · rw [if_neg hxid] at hfx
            subst hfx
            rw [hid] at hxid
            exact hxid (by simp)

/-- C3 witness: with two pending jobs, two back-to-back acquisitions inside
the first lease window hand out distinct jobs. -/
theorem acquire_next_no_double_grant_witness :
    acquire_next config0 5 "w1" 0 [sjob_a, sjob_b] =
      some (sjob_a_leased, [sjob_a_leased, sjob_b]) ∧
    acquire_next config0 5 "w2" 1 [sjob_a_leased, sjob_b] =
      some (sjob_b_leased, [sjob_a_leased, sjob_b_leased]) ∧
    sjob_b_leased.id ≠ sjob_a_leased.id := by
  refine ⟨by decide, by decide, ?_⟩
  exact acquire_next_no_double_grant config0 5 "w1" "w2" 0 1
    [sjob_a, sjob_b] [sjob_a_leased, sjob_b] [sjob_a_leased, sjob_b_leased]
    sjob_a_leased sjob_b_leased (by decide) (by decide) (by decide)

/-- C4 counterexample: starting from the empty store, the six-operation trace
`trace_no_reset` (enqueue with `max_retries = 0`, a failing attempt, a DLQ
retry without `--reset-attempts`, a second failing attempt) commits a record
with `attempts = 2 > max_retries + 1 = 1`, refuting invariant I4 as stated. -/
theorem attempts_budget_violation :
    runOps { } trace_no_reset [] = some [job_violating] ∧
    job_violating.attempts = 2 ∧ job_violating.max_retries = 0 ∧
    ¬ job_violating.attempts ≤ job_violating.max_retries + 1 := by decide

/-- C4 (amended): after every committed write of an interleaving of enqueues
(that leave the `attempts` field to its default of 0; any `state` override is
allowed), lease acquisitions, worker attempts and DLQ retries, every record
satisfies `attempts ≤ max_retries + 1` — provided every DLQ retry is run with
`--reset-attempts`; a DLQ retry that keeps the old attempt count can push a
later write past the bound. -/
theorem attempts_budget_conservative (cfg : Config) (ops : List Op) (s : Store)
    (hops : ∀ op ∈ ops, op.conservative)
    (hrun : runOps cfg ops [] = some s) :
    ∀ j ∈ s, j.attempts ≤ j.max_retries + 1 :=
  fun j hj =>
    (runOps_preserves cfg ops [] s hops (fun j hj => absurd hj (by simp)) hrun j hj).1

/-- C4 witness: the conservative trace leaves a single dead record with
`attempts = 1 ≤ max_retries + 1`. -/
theorem attempts_budget_conservative_witness :
    runOps { } trace_conservative [] = some [job_dead_once] ∧
    job_dead_once.attempts ≤ job_dead_once.max_retries + 1 := by
  refine ⟨by decide, ?_⟩
  exact attempts_budget_conservative { } trace_conservative [job_dead_once]
    (by decide) (by decide) job_dead_once (List.mem_singleton.mpr rfl)

/-- C5: DLQ retry succeeds (exit 0) exactly when a job with the given id
exists in state `dead`; on success it saves the record with `state = pending`,
`error_message` and `next_retry_at` cleared, and `attempts` reset to 0
exactly under the `--reset-attempts` flag (unchanged otherwise); on a job
that exists but is not dead, and on a missing id, it exits 1 and returns the
store unchanged. -/
theorem dlq_retry_spec (s : Store) (id : String) (reset : Bool) :
    ((dlq_retry s id reset).2 = 0 ↔
      ∃ j, s.lookup id = some j ∧ j.state = JobState.DEAD) ∧
    (∀ j, s.lookup id = some j → j.state = JobState.DEAD →
      dlq_retry s id reset =
        (s.save { j with state := JobState.PENDING, error_message := none,
                         next_retry_at := none,
                         attempts := if reset then 0 else j.attempts }, 0)) ∧
    (∀ j, s.lookup id = some j → j.state ≠ JobState.DEAD →
      dlq_retry s id reset = (s, 1)) ∧
    (s.lookup id = none → dlq_retry s id reset = (s, 1)) := by
  refine ⟨⟨fun h0 => ?_, fun he => ?_⟩,
    fun j hl hd => dlq_retry_found_dead s j id reset hl hd,
    fun j hl hd => dlq_retry_found_alive s j id reset hl hd,
    fun hl => dlq_retry_missing s id reset hl⟩
  · cases hl : s.lookup id with
    | none =>
        rw [dlq_retry_missing s id reset hl] at h0
        exact absurd h0 Nat.one_ne_zero
    | some j =>
        by_cases hd : j.state = JobState.DEAD
        · exact ⟨j, rfl, hd⟩
        · rw [dlq_retry_found_alive s j id reset hl hd] at h0
          exact absurd h0 Nat.one_ne_zero
  · obtain ⟨j, hl, hd⟩ := he
    rw [dlq_retry_found_dead s j id reset hl hd]

/-- C5 witness: retrying the dead fixture with `--reset-attempts` re-pends it
with cleared fields and zero attempts. -/
theorem dlq_retry_spec_witness :
    Store.lookup [job_dead] "jd" = some job_dead ∧
    job_dead.state = JobState.DEAD ∧
    dlq_retry [job_dead] "jd" true =
      (Store.save [job_dead]
        { job_dead with state := JobState.PENDING, error_message := none,
                        next_retry_at := none, attempts := 0 }, 0) := by
  have h := (dlq_retry_spec [job_dead] "jd" true).2.1 job_dead rfl rfl
  exact ⟨rfl, rfl, h⟩

/-- C6: enqueueing onto an id that already has a record fails with exit code
1 and returns the store unchanged, so the existing record is not mutated. -/
theorem enqueue_duplicate_rejected (s : Store) (cfg : Config) (now : String)
    (input : EnqueueInput) (j : Job) (h : s.lookup input.id = some j) :
    enqueue s cfg now input = (s, 1) :=
  enqueue_found s cfg now input j h

/-- C6 witness: enqueueing `input_x` a second time exits 1 and leaves the
one-record store as it was. -/
theorem enqueue_duplicate_rejected_witness :
    Store.lookup [Job.fromInput config0 "0Z" input_x] input_x.id =
      some (Job.fromInput config0 "0Z" input_x) ∧
    enqueue [Job.fromInput config0 "0Z" input_x] config0 "1Z" input_x =
      ([Job.fromInput config0 "0Z" input_x], 1) :=
  ⟨rfl, enqueue_duplicate_rejected [Job.fromInput config0 "0Z" input_x] config0 "1Z"
    input_x (Job.fromInput config0 "0Z" input_x) rfl⟩

/-- C7 (amended): for every enqueue input whose id is fresh, the job saved
into the store has state `pending` provided the input does not itself supply
a `state` field; an input may override the state, and the override is stored
verbatim. -/
theorem enqueue_default_state_pending (s : Store) (cfg : Config) (now : String)
    (input : EnqueueInput) (hfresh : s.lookup input.id = none)
    (hstate : input.state = none) :
    enqueue s cfg now input = (s.save (Job.fromInput cfg now input), 0) ∧
    (Job.fromInput cfg now input).state = JobState.PENDING := by
  refine ⟨enqueue_fresh s cfg now input hfresh, ?_⟩
  simp [Job.fromInput, hstate]

/-- C7 witness: enqueueing the minimal input into the empty store inserts a
pending job. -/
theorem enqueue_default_state_pending_witness :
    Store.lookup [] input_x.id = none ∧ input_x.state = none ∧
    enqueue [] config0 "0Z" input_x =
      (Store.save [] (Job.fromInput config0 "0Z" input_x), 0) ∧
    (Job.fromInput config0 "0Z" input_x).state = JobState.PENDING := by
  have h := enqueue_default_state_pending [] config0 "0Z" input_x rfl rfl
  exact ⟨rfl, rfl, h.1, h.2⟩

/-- C7 counterexample: the well-formed enqueue input `input_override`
(`id`, `command`, and a `state` field, as the Job JSON schema allows) is
accepted (exit 0) and inserts a job whose state is `completed`, not
`pending`. -/
theorem enqueue_state_override :
    (enqueue [] config0 "0Z" input_override).2 = 0 ∧
    ((enqueue [] config0 "0Z" input_override).1.lookup "x").map Job.state =
      some JobState.COMPLETED ∧
    JobState.COMPLETED ≠ JobState.PENDING := by decide

/-- C8: on a non-zero exit the recorded message is the stderr trimmed of
surrounding whitespace when stderr is non-empty and `"Exit code: <n>"`
otherwise; on a timeout it is `"Job timed out after <N> seconds"` with the
timeout in force. -/
theorem failure_message_spec (cfg : Config) (now : Nat) (job : Job) (rc : Int)
    (out err : String) (hrc : rc ≠ 0) :
    (err ≠ "" →
      (execute_job cfg now job (.completed rc out err)).error_message =
        some err.trim) ∧
    (err = "" →
      (execute_job cfg now job (.completed rc out err)).error_message =
        some ("Exit code: " ++ toString rc)) ∧
    (execute_job cfg now job .timeout).error_message =
      some ("Job timed out after " ++ toString cfg.job_timeout ++ " seconds") := by
  refine ⟨fun he => ?_, fun he => ?_, ?_⟩
  · rw [execute_job_failure cfg now job _ (by simpa [ExecResult.isSuccess])]
    rw [handle_job_failure_error_message]
    simp [failure_message, he]
  · rw [execute_job_failure cfg now job _ (by simpa [ExecResult.isSuccess])]
    rw [handle_job_failure_error_message]
    simp [failure_message, he]
  · rw [execute_job_failure cfg now job .timeout rfl,
      handle_job_failure_error_message]
    rfl

/-- C8 witness: exit code 1 with empty stderr records `"Exit code: 1"`. -/
theorem failure_message_spec_witness :
    (execute_job config0 0 job_ex1 (.completed 1 "" "")).error_message =
      some ("Exit code: " ++ toString (1 : Int)) := by
  have h := failure_message_spec config0 0 job_ex1 1 "" "" (by decide)
  exact h.2.1 rfl

/-- C9: `backoff_delay(k, b) = b^k` for every `k ≥ 0` in exact integer
arithmetic, and for every base `b > 1` the delay is strictly increasing
in `k`. -/
theorem backoff_delay_spec :
    (∀ k b : Nat, backoff_delay k b = b ^ k) ∧
    (∀ b : Nat, 1 < b → StrictMono (fun k => backoff_delay k b)) := by
  refine ⟨fun k b => rfl, fun b hb => strictMono_nat_of_lt_succ (fun n => ?_)⟩
  simpa [backoff_delay] using Nat.pow_lt_pow_succ hb

/-- C9 witness: at base 2 the delay equals the power and grows strictly. -/
theorem backoff_delay_spec_witness :
    backoff_delay 3 2 = 2 ^ 3 ∧ backoff_delay 3 2 < backoff_delay 4 2 :=
  ⟨backoff_delay_spec.1 3 2,
   backoff_delay_spec.2 2 (by decide) (by decide : (3 : Nat) < 4)⟩

/-- C10: for every `Job` value, `from_dict` after `to_dict` and `from_json`
after `to_json` reproduce the record exactly, for any ambient current
time `now`. -/
theorem job_serialization_roundtrip (now : String) (j : Job) :
    Job.from_dict now (Job.to_dict j) = some j ∧
    Job.from_json now (Job.to_json j) = some j := by
  cases j with
  | mk id cmd st a mr ca ua nra em =>
      constructor
      · cases nra <;> cases em <;> rfl
      · cases nra <;> cases em <;> rfl

end QueueCTL
